import Mathlib

/-!
# x402 payment-gate backend: formal model and verification

A shallow embedding of the x402 backend (an HTTP 402 pay-per-request gate):
* `NonceStore` with `issue`, `verifyAndUse`, `gc` — from `nonceStore.js`;
* `parseProof`, `verifyPhantom`, `verifyMetaMask`, `verifyProof` — from `verify.js`;
* `send402` and `handlePremium` — the gate orchestration from the server file.

JavaScript specifics modelled explicitly:
* `Date.now()` and `uuidv4()` are impure; the embedding threads the current
  time `now : Nat` (milliseconds) and the freshly drawn nonce string as
  explicit arguments.
* The JS `Map` backing the store is modelled as a function
  `String → Option NonceEntry` (get/set/delete semantics; iteration order of
  `gc` is irrelevant because `gc` only deletes, pointwise).
* External cryptography libraries (`bs58`, `tweetnacl`, `ethers`) are not part
  of this repository; they enter as an oracle record `CryptoOracles` whose
  fields return `Option` — `none` models the library call throwing, which the
  source catches with `try`/`catch`.
* Node's `Buffer.from(s, "base64")` never throws: it skips characters outside
  the base64 alphabet and decodes the rest best-effort.  `nodeBase64Decode`
  reproduces that lenient, total behaviour.
-/

namespace X402

/-! ## Nonce ledger (`nonceStore.js`) -/

/-- One ledger entry: `{ createdAt, expiresAt, used }`. -/
structure NonceEntry where
  createdAt : Nat
  expiresAt : Nat
  used : Bool
deriving DecidableEq

/-- The store: configured TTL (seconds) plus the nonce map. -/
structure NonceStore where
  ttl : Nat
  map : String → Option NonceEntry

/-- A store with no entries, as built by the constructor. -/
def mkStore (ttlSeconds : Nat) : NonceStore :=
  { ttl := ttlSeconds, map := fun _ => none }

/-- `issue()`: record `{createdAt: now, expiresAt: now + ttl*1000, used: false}`
under a freshly drawn nonce (the `uuidv4()` result is the `nonce` argument). -/
def NonceStore.issue (s : NonceStore) (nonce : String) (now : Nat) : NonceStore :=
  { s with map := fun m =>
      if m = nonce then some ⟨now, now + s.ttl * 1000, false⟩ else s.map m }

/-- Result object of `verifyAndUse`: `{ ok }` or `{ ok: false, reason }`. -/
structure UseResult where
  ok : Bool
  reason : Option String
deriving DecidableEq

/-- `verifyAndUse(nonce)`: not-found, then expiry, then replay, else mark used. -/
def NonceStore.verifyAndUse (s : NonceStore) (nonce : String) (now : Nat) :
    NonceStore × UseResult :=
  match s.map nonce with
  | none => (s, ⟨false, some "nonce_not_found"⟩)
  | some e =>
    if now > e.expiresAt then (s, ⟨false, some "nonce_expired"⟩)
    else if e.used then (s, ⟨false, some "nonce_replayed"⟩)
    else
      ({ s with map := fun m =>
          if m = nonce then some { e with used := true } else s.map m },
       ⟨true, none⟩)

/-- `gc()`: delete every entry that is used, or expired past a 60 s grace. -/
def NonceStore.gc (s : NonceStore) (now : Nat) : NonceStore :=
  { s with map := fun m =>
      match s.map m with
      | some e => if e.used = true ∨ now > e.expiresAt + 60000 then none else some e
      | none => none }

/-! ### Ledger operation traces

`LedgerOp` records one call into the store, with the impure inputs (the
`uuidv4()` draw of `issue`, the `Date.now()` reading) made explicit. -/

/-- One call into the nonce ledger. -/
inductive LedgerOp where
  | issue (nonce : String) (now : Nat)
  | use (nonce : String) (now : Nat)
  | collect (now : Nat)
deriving DecidableEq

/-- The store state after one ledger call. -/
def stepOp (s : NonceStore) : LedgerOp → NonceStore
  | .issue n t => s.issue n t
  | .use n t => (s.verifyAndUse n t).1
  | .collect t => s.gc t

/-- Run a whole call sequence. -/
def runOps (s : NonceStore) : List LedgerOp → NonceStore
  | [] => s
  | op :: rest => runOps (stepOp s op) rest

/-- The nonces drawn by the `issue` calls of a trace, in order. -/
def issuedNonces : List LedgerOp → List String
  | [] => []
  | LedgerOp.issue n _ :: rest => n :: issuedNonces rest
  | _ :: rest => issuedNonces rest

/-- Does this call succeed as a `verifyAndUse` of nonce `n` in state `s`? -/
def opSucceedsFor (s : NonceStore) (op : LedgerOp) (n : String) : Bool :=
  match op with
  | .use m t => m == n && ((s.verifyAndUse m t).2).ok
  | _ => false

/-- How many `verifyAndUse n` calls of the trace succeed, starting from `s`. -/
def successCount (s : NonceStore) : List LedgerOp → String → Nat
  | [], _ => 0
  | op :: rest, n =>
    (if opSucceedsFor s op n then 1 else 0) + successCount (stepOp s op) rest n

/-- Nonce `n` can no longer be consumed: its entry is gone or marked used. -/
def Burnt (s : NonceStore) (n : String) : Prop :=
  s.map n = none ∨ ∃ e, s.map n = some e ∧ e.used = true

/-- Every live entry of `s` stems from an `issue` call of `ops` and carries the
expiry timestamp `issue time + ttl·1000` computed there. -/
def ExpInv (ops : List LedgerOp) (s : NonceStore) : Prop :=
  ∀ n e, s.map n = some e →
    ∃ t0, LedgerOp.issue n t0 ∈ ops ∧ e.expiresAt = t0 + s.ttl * 1000

/-! ## Base64 (Node `Buffer.from(_, "base64")` / `Buffer.toString("base64")`)

Node's reader is lenient and total: characters outside the alphabet —
including the `=` padding — are skipped, and the surviving 6-bit values are
packed greedily (a trailing lone value is dropped).  That is why the
`try`/`catch` around `Buffer.from(b64sig, "base64")` in `parseProof` can never
fire. -/

/-- The standard base64 alphabet, index → character. -/
def b64chars : List Char :=
  "ABCDEFGHIJKLMNOPQRSTUVWXYZabcdefghijklmnopqrstuvwxyz0123456789+/".data

/-- Character of a 6-bit value. -/
def b64char (i : Nat) : Char := b64chars.getD i 'A'

/-- Position of `c` in a character list, or `none`. -/
def idxIn (c : Char) : List Char → Nat → Option Nat
  | [], _ => none
  | d :: rest, i => if d = c then some i else idxIn c rest (i + 1)

/-- 6-bit value of a character under Node's reader: the standard alphabet,
plus the URL-safe spellings of 62 and 63; anything else is skipped. -/
def b64val (c : Char) : Option Nat :=
  if c = '-' then some 62
  else if c = '_' then some 63
  else idxIn c b64chars 0

/-- Pack a stream of 6-bit values into bytes, greedily. -/
def packSextets : List Nat → List Nat
  | a :: b :: c :: d :: rest =>
    (a * 4 + b / 16) :: ((b % 16) * 16 + c / 4) :: ((c % 4) * 64 + d) ::
      packSextets rest
  | [a, b] => [a * 4 + b / 16]
  | [a, b, c] => [a * 4 + b / 16, (b % 16) * 16 + c / 4]
  | _ => []

/-- Node's lenient, total base64 reader. -/
def nodeBase64Decode (s : String) : List Nat :=
  packSextets (s.data.filterMap b64val)

/-- Standard base64 writer with `=` padding (what a client's `btoa` or
`Buffer.toString("base64")` produces for the signature field). -/
def encodeChunks : List Nat → List Char
  | x :: y :: z :: rest =>
    b64char (x / 4) :: b64char ((x % 4) * 16 + y / 16) ::
      b64char ((y % 16) * 4 + z / 64) :: b64char (z % 64) :: encodeChunks rest
  | [x, y] => [b64char (x / 4), b64char ((x % 4) * 16 + y / 16),
      b64char ((y % 16) * 4), '=']
  | [x] => [b64char (x / 4), b64char ((x % 4) * 16), '=', '=']
  | [] => []

/-- Base64 of a byte list, as a string. -/
def base64Encode (bytes : List Nat) : String := ⟨encodeChunks bytes⟩

/-! ## Proof codec (`verify.js`) -/

/-- JS `str.split(":")` on the character level: `""` gives one empty segment,
separators at the ends give empty segments. -/
def splitColon : List Char → List (List Char)
  | [] => [[]]
  | c :: rest =>
    match splitColon rest with
    | [] => [[]]
    | s :: ss => if c = ':' then [] :: s :: ss else (c :: s) :: ss

/-- JS `header.split(":")`. -/
def jsSplitColon (s : String) : List String :=
  (splitColon s.data).map (fun l => ⟨l⟩)

/-- Result of `parseProof`: `{ ok: false, reason }` or
`{ ok: true, kind, account, nonce, sigBytes }`. -/
inductive ParseResult where
  | err (reason : String)
  | ok (kind account nonce : String) (sigBytes : List Nat)
deriving DecidableEq

/-- Is this a successful parse? (`parsed.ok` in the source.) -/
def ParseResult.isOk : ParseResult → Bool
  | .ok _ _ _ _ => true
  | .err _ => false

/-- `parseProof(header)`.  `none` models an absent header; the JS truthiness
test `!header` also sends the empty string to `missing_header`.  The split
must give exactly 4 parts, the kind must be registered, and the signature
field goes through Node's total base64 reader — whose surrounding
`try`/`catch` (reason `bad_b64`) is therefore dead code. -/
def parseProof (header : Option String) : ParseResult :=
  match header with
  | none => .err "missing_header"
  | some h =>
    if h = "" then .err "missing_header"
    else
      match jsSplitColon h with
      | [kind, account, nonce, b64sig] =>
        if kind ≠ "phantom" ∧ kind ≠ "metamask" then .err "bad_kind"
        else .ok kind account nonce (nodeBase64Decode b64sig)
      | _ => .err "bad_format"

/-! ## Signature verification (`verify.js`) -/

/-- Outcome object of verification: `ok`, plus whichever of `who`, `chain`,
`reason` the source attaches on that path. -/
structure Verdict where
  ok : Bool
  who : Option String
  chain : Option String
  reason : Option String
deriving DecidableEq

/-- JS `toLowerCase`, on the ASCII range (addresses are ASCII). -/
def jsToLower (s : String) : String := ⟨s.data.map Char.toLower⟩

/-- Lowercase hex digit. -/
def hexDigit (n : Nat) : Char := "0123456789abcdef".data.getD n '0'

/-- `Buffer.toString("hex")`: two lowercase digits per byte. -/
def toHexStr (bytes : List Nat) : String :=
  ⟨bytes.foldr (fun b acc => hexDigit (b / 16) :: hexDigit (b % 16) :: acc) []⟩

/-- `Buffer.from("x402-proof:" + nonce, "utf8")` (nonces are ASCII UUIDs, so
code points coincide with UTF-8 bytes). -/
def msgBytes (nonce : String) : List Nat :=
  ("x402-proof:" ++ nonce).data.map Char.toNat

/-- The external crypto libraries, as oracles.  `none` models the call
throwing; any other behaviour of the real library is some instantiation. -/
structure CryptoOracles where
  bs58Decode : String → Option (List Nat)
  naclVerify : List Nat → List Nat → List Nat → Option Bool
  ethersVerifyMessage : String → String → Option String

/-- `verifyPhantom`: decode the base58 account to a public key and check a
detached ed25519 signature; any library throw is caught. -/
def verifyPhantom (o : CryptoOracles) (accountBase58 : String)
    (sigBytes : List Nat) (nonce : String) : Verdict :=
  match o.bs58Decode accountBase58 with
  | none => ⟨false, none, none, some "phantom_verify_error"⟩
  | some pub =>
    match o.naclVerify (msgBytes nonce) sigBytes pub with
    | none => ⟨false, none, none, some "phantom_verify_error"⟩
    | some r => ⟨r, some accountBase58, some "solana", none⟩

/-- `verifyMetaMask`: hex-encode the signature, recover the signer of the
personal message, and compare addresses case-insensitively; the verdict's
`who` is the recovered address.  Any library throw is caught. -/
def verifyMetaMask (o : CryptoOracles) (accountAddress : String)
    (sigBytes : List Nat) (nonce : String) : Verdict :=
  match o.ethersVerifyMessage ("x402-proof:" ++ nonce)
      ("0x" ++ toHexStr sigBytes) with
  | none => ⟨false, none, none, some "metamask_verify_error"⟩
  | some recovered =>
    ⟨jsToLower recovered == jsToLower accountAddress,
     some recovered, some "evm", none⟩

/-- `verifyProof(header)`: parse, then dispatch on the kind; a parse failure
is returned as-is, an unregistered kind (unreachable past the codec) gets the
defensive `unknown_kind` verdict. -/
def verifyProof (o : CryptoOracles) (header : Option String) : Verdict :=
  match parseProof header with
  | .err r => ⟨false, none, none, some r⟩
  | .ok kind account nonce sigBytes =>
    if kind = "phantom" then verifyPhantom o account sigBytes nonce
    else if kind = "metamask" then verifyMetaMask o account sigBytes nonce
    else ⟨false, none, none, some "unknown_kind"⟩

/-! ## Payment gate (server file) -/

/-- The environment-sourced configuration the gate reads: receiver per chain
(`""` = unset, JS falsy), price per chain, TTL seconds. -/
structure GateConfig where
  receiverSol : String
  receiverEvm : String
  priceSol : Rat
  priceEth : Rat
  ttlSeconds : Nat
deriving DecidableEq

/-- The four response shapes of the gate.  `challenge` is the HTTP 402 `x402`
payload (`hasEvmTx` records whether the prebuilt `evmTx` hint is attached; its
wei amount is a function of the configured price only and no claim touches
it).  `paymentError` is the HTTP 402 `{error}` body, `serverError` the HTTP
500 body, `granted` the HTTP 200 body with the resolved signer and chain (its
constant message and timestamp carry no information). -/
inductive GateResponse where
  | challenge (chain receiver : String) (amount : Rat) (ttl : Nat)
      (nonce : String) (hasEvmTx : Bool)
  | paymentError (reason : Option String)
  | serverError (msg : String)
  | granted (who chain : Option String)
deriving DecidableEq

/-- `send402(res, {chain})`: issue a fresh nonce FIRST, then branch on the
chain; a missing receiver for the chosen chain is answered with HTTP 500. -/
def send402 (cfg : GateConfig) (s : NonceStore) (fresh : String) (now : Nat)
    (chain : String) : NonceStore × GateResponse :=
  let s2 := s.issue fresh now
  if chain = "evm" then
    if cfg.receiverEvm = "" then (s2, .serverError "RECEIVER_EVM not set")
    else (s2, .challenge "evm" cfg.receiverEvm cfg.priceEth cfg.ttlSeconds fresh true)
  else
    if cfg.receiverSol = "" then (s2, .serverError "RECEIVER_SOL not set")
    else (s2, .challenge "solana" cfg.receiverSol cfg.priceSol cfg.ttlSeconds fresh false)

/-- The no-proof tail of `handlePremium`: explicit chain query, else auto-pick
(Solana preferred when its receiver is configured). -/
def noProofBranch (cfg : GateConfig) (s : NonceStore) (fresh : String)
    (now : Nat) (chainQuery : String) : NonceStore × GateResponse :=
  if chainQuery = "evm" then send402 cfg s fresh now "evm"
  else if chainQuery = "solana" then send402 cfg s fresh now "solana"
  else send402 cfg s fresh now (if cfg.receiverSol ≠ "" then "solana" else "evm")

/-- `handlePremium(req, res)`.  `chainQueryRaw` is `req.query.chain` (the JS
lowercases it, `""` when absent); `provenHeader` the `x402-proof` header,
which the JS truthiness test treats as absent when empty.  The source parses
the header a second time before `verifyAndUse`; `parseProof` is pure, so the
second parse returns the same fields and the embedding binds them once. -/
def handlePremium (cfg : GateConfig) (s : NonceStore) (o : CryptoOracles)
    (fresh : String) (now : Nat) (chainQueryRaw : String)
    (provenHeader : Option String) : NonceStore × GateResponse :=
  let chainQuery := jsToLower chainQueryRaw
  match provenHeader with
  | none => noProofBranch cfg s fresh now chainQuery
  | some h =>
    if h = "" then noProofBranch cfg s fresh now chainQuery
    else
      match parseProof (some h) with
      | .err _ =>
        send402 cfg s fresh now (if chainQuery = "" then "solana" else chainQuery)
      | .ok kind _ nonce _ =>
        let verified := verifyProof o (some h)
        if verified.ok = false then
          send402 cfg s fresh now
            (if chainQuery = ""
             then (if kind = "metamask" then "evm" else "solana")
             else chainQuery)
        else
          let used := s.verifyAndUse nonce now
          if (used.2).ok = false then (used.1, .paymentError (used.2).reason)
          else (used.1, .granted verified.who verified.chain)

/-- Is this response a fresh 402 challenge? -/
def GateResponse.isChallenge : GateResponse → Bool
  | .challenge _ _ _ _ _ _ => true
  | _ => false

/-! ### Concrete fixtures for closed examples -/

/-- One admissible behaviour of the libraries: base58 decoding yields a
32-byte zero key, the ed25519 check completes and reports a clean mismatch,
recovery completes and returns the fixed address `0xAbCd`. -/
def sampleOracles : CryptoOracles :=
  { bs58Decode := fun _ => some (List.replicate 32 0)
  , naclVerify := fun _ _ _ => some false
  , ethersVerifyMessage := fun _ _ => some "0xAbCd" }

/-- The behaviour where every library call throws. -/
def throwingOracles : CryptoOracles :=
  { bs58Decode := fun _ => none
  , naclVerify := fun _ _ _ => none
  , ethersVerifyMessage := fun _ _ => none }

/-- A gate configuration with no receiver set for either chain. -/
def emptyConfig : GateConfig :=
  { receiverSol := "", receiverEvm := "", priceSol := 0, priceEth := 0,
    ttlSeconds := 300 }

end X402

/-! ## Claim C2 -/

/-- C2: `verifyAndUse` checks, in order: unknown token → `nonce_not_found`;
current time past the expiry timestamp → `nonce_expired`; already-used flag →
`nonce_replayed`; otherwise it marks the entry used (touching no other entry)
and reports success. -/
theorem X402.verifyAndUse_cases (s : X402.NonceStore) (n : String) (now : Nat) :
    (s.map n = none → s.verifyAndUse n now = (s, ⟨false, some "nonce_not_found"⟩)) ∧
    (∀ e, s.map n = some e → now > e.expiresAt →
      s.verifyAndUse n now = (s, ⟨false, some "nonce_expired"⟩)) ∧
    (∀ e, s.map n = some e → ¬ now > e.expiresAt → e.used = true →
      s.verifyAndUse n now = (s, ⟨false, some "nonce_replayed"⟩)) ∧
    (∀ e, s.map n = some e → ¬ now > e.expiresAt → e.used = false →
      (s.verifyAndUse n now).2 = ⟨true, none⟩ ∧
      ((s.verifyAndUse n now).1).map n = some { e with used := true } ∧
      ∀ m, m ≠ n → ((s.verifyAndUse n now).1).map m = s.map m) := by
  refine ⟨?_, ?_, ?_, ?_⟩
  · intro h
    simp [X402.NonceStore.verifyAndUse, h]
  · intro e he hexp
    simp [X402.NonceStore.verifyAndUse, he, hexp]
  · intro e he hexp hused
    simp [X402.NonceStore.verifyAndUse, he, hexp, hused]
  · intro e he hexp hused
    refine ⟨?_, ?_, ?_⟩
    · simp [X402.NonceStore.verifyAndUse, he, hexp, hused]
    · simp [X402.NonceStore.verifyAndUse, he, hexp, hused]
    · intro m hm
      simp [X402.NonceStore.verifyAndUse, he, hexp, hused, hm]

/-- Witness for C2: on the empty store every token is unknown, so
`verifyAndUse` reports `nonce_not_found` and leaves the store unchanged. -/
theorem X402.verifyAndUse_cases_witness :
    (X402.mkStore 300).verifyAndUse "n1" 0 =
      (X402.mkStore 300, ⟨false, some "nonce_not_found"⟩) :=
  (X402.verifyAndUse_cases (X402.mkStore 300) "n1" 0).1 rfl

/-! ## Ledger lemmas for claim C3 -/

/-- `issue` writes the fresh entry under its nonce. -/
theorem X402.issue_map_self (s : X402.NonceStore) (m : String) (t : Nat) :
    (s.issue m t).map m = some ⟨t, t + s.ttl * 1000, false⟩ := by
  simp [X402.NonceStore.issue]

/-- `issue` leaves every other key unchanged. -/
theorem X402.issue_map_other (s : X402.NonceStore) (m : String) (t : Nat)
    (n : String) (h : n ≠ m) : (s.issue m t).map n = s.map n := by
  simp [X402.NonceStore.issue, h]

/-- `verifyAndUse` never creates an entry. -/
theorem X402.verifyAndUse_map_of_none (s : X402.NonceStore) (m : String) (t : Nat)
    (n : String) (h : s.map n = none) : ((s.verifyAndUse m t).1).map n = none := by
  unfold X402.NonceStore.verifyAndUse
  cases hm : s.map m with
  | none => simpa using h
  | some e =>
    rcases eq_or_ne n m with rfl | hne
    · rw [h] at hm; cases hm
    · by_cases h1 : t > e.expiresAt
      · simp [h1, h]
      · by_cases h2 : e.used
        · simp [h1, h2, h]
        · simp [h1, h2, hne, h]

/-- `verifyAndUse m` does not touch the entry of any other nonce. -/
theorem X402.verifyAndUse_map_other (s : X402.NonceStore) (m : String) (t : Nat)
    (n : String) (hne : n ≠ m) : ((s.verifyAndUse m t).1).map n = s.map n := by
  unfold X402.NonceStore.verifyAndUse
  cases hm : s.map m with
  | none => rfl
  | some e =>
    by_cases h1 : t > e.expiresAt
    · simp [h1]
    · by_cases h2 : e.used
      · simp [h1, h2]
      · simp [h1, h2, hne]

/-- A failing `verifyAndUse` leaves the store untouched. -/
theorem X402.verifyAndUse_fail_fst (s : X402.NonceStore) (n : String) (t : Nat)
    (h : ((s.verifyAndUse n t).2).ok = false) : (s.verifyAndUse n t).1 = s := by
  unfold X402.NonceStore.verifyAndUse at h ⊢
  cases hm : s.map n with
  | none => rfl
  | some e =>
    by_cases h1 : t > e.expiresAt
    · simp [h1]
    · by_cases h2 : e.used
      · simp [h1, h2]
      · simp [hm, h1, h2] at h

/-- A succeeding `verifyAndUse` finds a live, unexpired, unused entry and marks
exactly it used. -/
theorem X402.verifyAndUse_ok_entry (s : X402.NonceStore) (n : String) (t : Nat)
    (h : ((s.verifyAndUse n t).2).ok = true) :
    ∃ e, s.map n = some e ∧ t ≤ e.expiresAt ∧ e.used = false ∧
      ((s.verifyAndUse n t).1).map n = some { e with used := true } := by
  unfold X402.NonceStore.verifyAndUse at h ⊢
  cases hm : s.map n with
  | none => simp [hm] at h
  | some e =>
    by_cases h1 : t > e.expiresAt
    · simp [hm, h1] at h
    · by_cases h2 : e.used
      · simp [hm, h1, h2] at h
      · exact ⟨e, rfl, by omega, by simpa using h2, by simp [hm, h1, h2]⟩

/-- After a successful `verifyAndUse m`, the entry of `m` is either untouched
(failure path) or the previous entry with the used flag set. -/
theorem X402.verifyAndUse_map_cases (s : X402.NonceStore) (m : String) (t : Nat) :
    ((s.verifyAndUse m t).1).map m = s.map m ∨
    ∃ e0, s.map m = some e0 ∧
      ((s.verifyAndUse m t).1).map m = some { e0 with used := true } := by
  by_cases h : ((s.verifyAndUse m t).2).ok = true
  · rcases X402.verifyAndUse_ok_entry s m t h with ⟨e, he, _, _, hafter⟩
    exact Or.inr ⟨e, he, hafter⟩
  · rw [X402.verifyAndUse_fail_fst s m t (by simpa using h)]
    exact Or.inl rfl

/-- `gc` never creates an entry. -/
theorem X402.gc_map_of_none (s : X402.NonceStore) (t : Nat) (n : String)
    (h : s.map n = none) : ((s.gc t)).map n = none := by
  simp [X402.NonceStore.gc, h]

/-- An entry surviving `gc` was already there, unchanged. -/
theorem X402.gc_map_some (s : X402.NonceStore) (t : Nat) (n : String)
    (e : X402.NonceEntry) (h : (s.gc t).map n = some e) : s.map n = some e := by
  unfold X402.NonceStore.gc at h
  cases hm : s.map n with
  | none => simp [hm] at h
  | some e0 =>
    simp [hm] at h
    rw [h.2]

/-- A burnt nonce can never be consumed. -/
theorem X402.burnt_use_fail (s : X402.NonceStore) (n : String) (t : Nat)
    (h : X402.Burnt s n) : ((s.verifyAndUse n t).2).ok = false := by
  unfold X402.NonceStore.verifyAndUse
  rcases h with hnone | ⟨e, he, hused⟩
  · simp [hnone]
  · by_cases h1 : t > e.expiresAt
    · simp [he, h1]
    · simp [he, h1, hused]

/-- A successful consumption leaves the nonce burnt. -/
theorem X402.burnt_after_use_ok (s : X402.NonceStore) (n : String) (t : Nat)
    (h : ((s.verifyAndUse n t).2).ok = true) :
    X402.Burnt ((s.verifyAndUse n t).1) n := by
  rcases X402.verifyAndUse_ok_entry s n t h with ⟨e, _, _, _, hafter⟩
  exact Or.inr ⟨{ e with used := true }, hafter, rfl⟩

/-- Every ledger call other than reissuing `n` itself preserves burntness. -/
theorem X402.burnt_step (s : X402.NonceStore) (op : X402.LedgerOp) (n : String)
    (hop : ∀ t, op ≠ X402.LedgerOp.issue n t) (h : X402.Burnt s n) :
    X402.Burnt (X402.stepOp s op) n := by
  cases op with
  | issue m t =>
    have hne : n ≠ m := by
      intro he; exact hop t (by rw [he])
    rcases h with hnone | ⟨e, he, hused⟩
    · exact Or.inl (by rwa [X402.stepOp, X402.issue_map_other s m t n hne])
    · exact Or.inr ⟨e, by rwa [X402.stepOp, X402.issue_map_other s m t n hne], hused⟩
  | use m t =>
    rcases eq_or_ne n m with rfl | hne
    · have hfail := X402.burnt_use_fail s n t h
      rw [X402.stepOp, X402.verifyAndUse_fail_fst s n t hfail]
      exact h
    · rcases h with hnone | ⟨e, he, hused⟩
      · exact Or.inl (by rwa [X402.stepOp, X402.verifyAndUse_map_other s m t n hne])
      · exact Or.inr ⟨e, by rwa [X402.stepOp, X402.verifyAndUse_map_other s m t n hne], hused⟩
  | collect t =>
    rcases h with hnone | ⟨e, he, hused⟩
    · exact Or.inl (X402.gc_map_of_none s t n hnone)
    · exact Or.inl (by simp [X402.stepOp, X402.NonceStore.gc, he, hused])

/-- A burnt nonce that is never reissued yields no further successes. -/
theorem X402.successCount_zero_of_burnt (ops : List X402.LedgerOp) :
    ∀ s n, X402.Burnt s n → n ∉ X402.issuedNonces ops →
      X402.successCount s ops n = 0 := by
  induction ops with
  | nil => intro s n _ _; rfl
  | cons op rest ih =>
    intro s n hb hn
    have hop : ∀ t, op ≠ X402.LedgerOp.issue n t := by
      intro t he
      rw [he] at hn
      exact hn (by simp [X402.issuedNonces])
    have hn2 : n ∉ X402.issuedNonces rest := by
      cases op with
      | issue m t => simp [X402.issuedNonces] at hn; exact hn.2
      | use m t => simpa [X402.issuedNonces] using hn
      | collect t => simpa [X402.issuedNonces] using hn
    have hfail : X402.opSucceedsFor s op n = false := by
      cases op with
      | issue m t => rfl
      | use m t =>
        rcases eq_or_ne m n with rfl | hne
        · simp [X402.opSucceedsFor, X402.burnt_use_fail s m _ hb]
        · simp [X402.opSucceedsFor, hne]
      | collect t => rfl
    have hrec := ih (X402.stepOp s op) n (X402.burnt_step s op n hop hb) hn2
    simp [X402.successCount, hfail, hrec]

/-- With pairwise-distinct issue draws ahead, a trace yields at most one
successful consumption of any given nonce. -/
theorem X402.successCount_le_one_aux (ops : List X402.LedgerOp) :
    ∀ s n, (X402.issuedNonces ops).Nodup →
      (s.map n ≠ none → n ∉ X402.issuedNonces ops) →
      X402.successCount s ops n ≤ 1 := by
  induction ops with
  | nil => intro s n _ _; exact Nat.zero_le 1
  | cons op rest ih =>
    intro s n hnd hmem
    by_cases hs : X402.opSucceedsFor s op n = true
    · cases op with
      | issue m t => simp [X402.opSucceedsFor] at hs
      | collect t => simp [X402.opSucceedsFor] at hs
      | use m t =>
        simp only [X402.opSucceedsFor, Bool.and_eq_true, beq_iff_eq] at hs
        obtain ⟨rfl, hok⟩ := hs
        rcases X402.verifyAndUse_ok_entry s m t hok with ⟨e, he, _, _, hafter⟩
        have hb : X402.Burnt (X402.stepOp s (X402.LedgerOp.use m t)) m :=
          Or.inr ⟨{ e with used := true }, hafter, rfl⟩
        have hm2 : m ∉ X402.issuedNonces rest := by
          have : s.map m ≠ none := by rw [he]; exact fun h => by cases h
          simpa [X402.issuedNonces] using hmem this
        have hzero := X402.successCount_zero_of_burnt rest
          (X402.stepOp s (X402.LedgerOp.use m t)) m hb hm2
        simp [X402.successCount, X402.opSucceedsFor, hok, hzero]
    · have hfail : X402.opSucceedsFor s op n = false := by simpa using hs
      have hnd2 : (X402.issuedNonces rest).Nodup := by
        cases op with
        | issue m t => simp [X402.issuedNonces] at hnd; exact hnd.2
        | use m t => simpa [X402.issuedNonces] using hnd
        | collect t => simpa [X402.issuedNonces] using hnd
      have hmem2 : (X402.stepOp s op).map n ≠ none → n ∉ X402.issuedNonces rest := by
        intro h2
        cases op with
        | issue m t =>
          rcases eq_or_ne n m with rfl | hne
          · simp [X402.issuedNonces] at hnd; exact hnd.1
          · have h3 : s.map n ≠ none := by
              rwa [X402.stepOp, X402.issue_map_other s m t n hne] at h2
            have := hmem h3
            simp [X402.issuedNonces] at this
            exact this.2
        | use m t =>
          have h3 : s.map n ≠ none := by
            intro hnone
            exact h2 (X402.verifyAndUse_map_of_none s m t n hnone)
          simpa [X402.issuedNonces] using hmem h3
        | collect t =>
          have h3 : s.map n ≠ none := by
            intro hnone
            exact h2 (X402.gc_map_of_none s t n hnone)
          simpa [X402.issuedNonces] using hmem h3
      have hrec := ih (X402.stepOp s op) n hnd2 hmem2
      calc X402.successCount s (op :: rest) n
          = X402.successCount (X402.stepOp s op) rest n := by
            simp [X402.successCount, hfail]
        _ ≤ 1 := hrec

/-- Every ledger call keeps the configured TTL. -/
theorem X402.stepOp_ttl (s : X402.NonceStore) (op : X402.LedgerOp) :
    (X402.stepOp s op).ttl = s.ttl := by
  cases op with
  | issue m t => rfl
  | use m t =>
    show ((s.verifyAndUse m t).1).ttl = s.ttl
    unfold X402.NonceStore.verifyAndUse
    cases hm : s.map m with
    | none => simp [hm]
    | some e =>
      by_cases h1 : t > e.expiresAt
      · simp [hm, h1]
      · by_cases h2 : e.used
        · simp [hm, h1, h2]
        · simp [hm, h1, h2]
  | collect t => rfl

/-- Running a trace keeps the configured TTL. -/
theorem X402.runOps_ttl (l : List X402.LedgerOp) :
    ∀ s, (X402.runOps s l).ttl = s.ttl := by
  induction l with
  | nil => intro s; rfl
  | cons op rest ih =>
    intro s
    rw [X402.runOps, ih (X402.stepOp s op), X402.stepOp_ttl]

/-- One ledger call preserves the entry-origin invariant. -/
theorem X402.expInv_stepOp (pre : List X402.LedgerOp) (op : X402.LedgerOp)
    (s : X402.NonceStore) (h : X402.ExpInv pre s) :
    X402.ExpInv (pre ++ [op]) (X402.stepOp s op) := by
  intro n e he
  rw [X402.stepOp_ttl]
  cases op with
  | issue m t =>
    rcases eq_or_ne n m with rfl | hne
    · rw [X402.stepOp, X402.issue_map_self] at he
      obtain rfl : (⟨t, t + s.ttl * 1000, false⟩ : X402.NonceEntry) = e :=
        Option.some.inj he
      exact ⟨t, by simp, rfl⟩
    · rw [X402.stepOp, X402.issue_map_other s m t n hne] at he
      rcases h n e he with ⟨t0, hmem, hexp⟩
      exact ⟨t0, by simp [hmem], hexp⟩
  | use m t =>
    rcases eq_or_ne n m with rfl | hne
    · rcases X402.verifyAndUse_map_cases s n t with hsame | ⟨e0, he0, hused⟩
      · rw [X402.stepOp, hsame] at he
        rcases h n e he with ⟨t0, hmem, hexp⟩
        exact ⟨t0, by simp [hmem], hexp⟩
      · rw [X402.stepOp, hused] at he
        obtain rfl : ({ e0 with used := true } : X402.NonceEntry) = e :=
          Option.some.inj he
        rcases h n e0 he0 with ⟨t0, hmem, hexp⟩
        exact ⟨t0, by simp [hmem], hexp⟩
    · rw [X402.stepOp, X402.verifyAndUse_map_other s m t n hne] at he
      rcases h n e he with ⟨t0, hmem, hexp⟩
      exact ⟨t0, by simp [hmem], hexp⟩
  | collect t =>
    have := X402.gc_map_some s t n e he
    rcases h n e this with ⟨t0, hmem, hexp⟩
    exact ⟨t0, by simp [hmem], hexp⟩

/-- Running a trace preserves the entry-origin invariant. -/
theorem X402.expInv_run (l : List X402.LedgerOp) :
    ∀ pre s, X402.ExpInv pre s → X402.ExpInv (pre ++ l) (X402.runOps s l) := by
  induction l with
  | nil => intro pre s h; simpa using h
  | cons op rest ih =>
    intro pre s h
    have h2 := X402.expInv_stepOp pre op s h
    have h3 := ih (pre ++ [op]) (X402.stepOp s op) h2
    rw [X402.runOps]
    simpa using h3

/-! ## Claim C3 -/

/-- C3: over any sequence of `issue`, `verifyAndUse` and `gc` calls starting
from an empty store, with the `uuidv4()` draws of the `issue` calls pairwise
distinct, any given nonce is consumed successfully at most once, and a
`verifyAndUse` that succeeds at time `t` has `t` no later than the expiry
timestamp `t0 + ttl·1000` recorded when the nonce was issued at time `t0`. -/
theorem X402.nonce_single_use_and_ttl (ttl : Nat) (ops : List X402.LedgerOp)
    (n : String) (hnd : (X402.issuedNonces ops).Nodup) :
    X402.successCount (X402.mkStore ttl) ops n ≤ 1 ∧
    ∀ l1 t l2, ops = l1 ++ X402.LedgerOp.use n t :: l2 →
      (((X402.runOps (X402.mkStore ttl) l1).verifyAndUse n t).2).ok = true →
      ∃ t0, X402.LedgerOp.issue n t0 ∈ l1 ∧ t ≤ t0 + ttl * 1000 := by
  constructor
  · exact X402.successCount_le_one_aux ops (X402.mkStore ttl) n hnd
      (fun h => absurd rfl h)
  · intro l1 t l2 hsplit hok
    have hbase : X402.ExpInv [] (X402.mkStore ttl) := by
      intro m e he
      cases he
    have hinv : X402.ExpInv l1 (X402.runOps (X402.mkStore ttl) l1) := by
      have := X402.expInv_run l1 [] (X402.mkStore ttl) hbase
      simpa using this
    rcases X402.verifyAndUse_ok_entry _ n t hok with ⟨e, he, hle, _, _⟩
    rcases hinv n e he with ⟨t0, hmem, hexp⟩
    rw [X402.runOps_ttl] at hexp
    refine ⟨t0, hmem, ?_⟩
    have : e.expiresAt = t0 + ttl * 1000 := hexp
    omega

/-- Witness for C3: the trace issue → use → use on one nonce has distinct issue
draws, so the theorem applies; its first use succeeds, the second must fail. -/
theorem X402.nonce_single_use_and_ttl_witness :
    (X402.issuedNonces [X402.LedgerOp.issue "a" 0, X402.LedgerOp.use "a" 1,
      X402.LedgerOp.use "a" 2]).Nodup ∧
    X402.successCount (X402.mkStore 300) [X402.LedgerOp.issue "a" 0,
      X402.LedgerOp.use "a" 1, X402.LedgerOp.use "a" 2] "a" ≤ 1 :=
  ⟨by decide, (X402.nonce_single_use_and_ttl 300 [X402.LedgerOp.issue "a" 0,
    X402.LedgerOp.use "a" 1, X402.LedgerOp.use "a" 2] "a" (by decide)).1⟩

/-! ## Codec lemmas -/

/-- The reader inverts the alphabet table (checked by evaluation). -/
theorem X402.b64val_b64char_fin :
    ∀ i : Fin 64, X402.b64val (X402.b64char i.val) = some i.val := by decide

/-- The reader inverts the alphabet table, `Nat` form. -/
theorem X402.b64val_b64char (i : Nat) (h : i < 64) :
    X402.b64val (X402.b64char i) = some i :=
  X402.b64val_b64char_fin ⟨i, h⟩

/-- Padding contributes nothing to the reader. -/
theorem X402.b64val_pad : X402.b64val '=' = none := by decide

/-- No alphabet character is a colon. -/
theorem X402.b64char_ne_colon (i : Nat) : X402.b64char i ≠ ':' := by
  by_cases h : i < 64
  · exact (by decide : ∀ j : Fin 64, X402.b64char j.val ≠ ':') ⟨i, h⟩
  · unfold X402.b64char
    rw [List.getD_eq_default]
    · decide
    · have h64 : X402.b64chars.length = 64 := by decide
      omega

/-- Reading back what the writer produced recovers the bytes. -/
theorem X402.packSextets_encode : ∀ l : List Nat, (∀ b ∈ l, b < 256) →
    X402.packSextets (List.filterMap X402.b64val (X402.encodeChunks l)) = l
  | [], _ => rfl
  | [x], h => by
    have hx : x < 256 := h x (by simp)
    have h1 : x / 4 < 64 := by omega
    have h2 : (x % 4) * 16 < 64 := by omega
    simp only [X402.encodeChunks, List.filterMap_cons,
      X402.b64val_b64char _ h1, X402.b64val_b64char _ h2, X402.b64val_pad,
      List.filterMap_nil, X402.packSextets]
    have : x / 4 * 4 + (x % 4) * 16 / 16 = x := by omega
    rw [this]
  | [x, y], h => by
    have hx : x < 256 := h x (by simp)
    have hy : y < 256 := h y (by simp)
    have h1 : x / 4 < 64 := by omega
    have h2 : (x % 4) * 16 + y / 16 < 64 := by omega
    have h3 : (y % 16) * 4 < 64 := by omega
    simp only [X402.encodeChunks, List.filterMap_cons,
      X402.b64val_b64char _ h1, X402.b64val_b64char _ h2,
      X402.b64val_b64char _ h3, X402.b64val_pad,
      List.filterMap_nil, X402.packSextets]
    have e1 : x / 4 * 4 + ((x % 4) * 16 + y / 16) / 16 = x := by omega
    have e2 : (((x % 4) * 16 + y / 16) % 16) * 16 + (y % 16) * 4 / 4 = y := by
      omega
    rw [e1, e2]
  | x :: y :: z :: rest, h => by
    have hx : x < 256 := h x (by simp)
    have hy : y < 256 := h y (by simp)
    have hz : z < 256 := h z (by simp)
    have h1 : x / 4 < 64 := by omega
    have h2 : (x % 4) * 16 + y / 16 < 64 := by omega
    have h3 : (y % 16) * 4 + z / 64 < 64 := by omega
    have h4 : z % 64 < 64 := by omega
    have hrest := X402.packSextets_encode rest
      (fun b hb => h b (by simp [hb]))
    simp only [X402.encodeChunks, List.filterMap_cons,
      X402.b64val_b64char _ h1, X402.b64val_b64char _ h2,
      X402.b64val_b64char _ h3, X402.b64val_b64char _ h4,
      X402.packSextets, hrest]
    have e1 : x / 4 * 4 + ((x % 4) * 16 + y / 16) / 16 = x := by omega
    have e2 : (((x % 4) * 16 + y / 16) % 16) * 16 + ((y % 16) * 4 + z / 64) / 4 = y := by
      omega
    have e3 : (((y % 16) * 4 + z / 64) % 4) * 64 + z % 64 = z := by omega
    rw [e1, e2, e3]

/-- Reading back the writer's output through Node's reader is the identity on
byte lists. -/
theorem X402.nodeBase64Decode_encode (sig : List Nat) (h : ∀ b ∈ sig, b < 256) :
    X402.nodeBase64Decode (X402.base64Encode sig) = sig :=
  X402.packSextets_encode sig h

/-- The writer never emits a colon. -/
theorem X402.encodeChunks_ne_colon : ∀ l : List Nat, ':' ∉ X402.encodeChunks l
  | [] => by simp [X402.encodeChunks]
  | [x] => by
    intro hmem
    simp [X402.encodeChunks] at hmem
    rcases hmem with h | h
    · exact X402.b64char_ne_colon _ h.symm
    · exact X402.b64char_ne_colon _ h.symm
  | [x, y] => by
    intro hmem
    simp [X402.encodeChunks] at hmem
    rcases hmem with h | h | h
    · exact X402.b64char_ne_colon _ h.symm
    · exact X402.b64char_ne_colon _ h.symm
    · exact X402.b64char_ne_colon _ h.symm
  | x :: y :: z :: rest => by
    intro hmem
    simp [X402.encodeChunks] at hmem
    rcases hmem with h | h | h | h | h
    · exact X402.b64char_ne_colon _ h.symm
    · exact X402.b64char_ne_colon _ h.symm
    · exact X402.b64char_ne_colon _ h.symm
    · exact X402.b64char_ne_colon _ h.symm
    · exact X402.encodeChunks_ne_colon rest h

/-- `splitColon` always yields at least one segment. -/
theorem X402.splitColon_ne_nil : ∀ l : List Char, X402.splitColon l ≠ []
  | [] => by simp [X402.splitColon]
  | c :: rest => by
    simp only [X402.splitColon]
    cases h : X402.splitColon rest with
    | nil => simp
    | cons s ss => by_cases hc : c = ':' <;> simp [hc]

/-- A colon-free prefix becomes the first segment. -/
theorem X402.splitColon_append (a b : List Char) (h : ':' ∉ a) :
    X402.splitColon (a ++ ':' :: b) = a :: X402.splitColon b := by
  induction a with
  | nil =>
    simp only [List.nil_append, X402.splitColon]
    cases hb : X402.splitColon b with
    | nil => exact absurd hb (X402.splitColon_ne_nil b)
    | cons s ss => simp
  | cons c a2 ih =>
    have hc : c ≠ ':' := fun he => h (by simp [he])
    have ha : ':' ∉ a2 := fun hm => h (by simp [hm])
    simp only [List.cons_append, X402.splitColon, List.append_eq]
    rw [ih ha]
    simp [hc]

/-- A colon-free list is a single segment. -/
theorem X402.splitColon_no_colon (l : List Char) (h : ':' ∉ l) :
    X402.splitColon l = [l] := by
  induction l with
  | nil => rfl
  | cons c rest ih =>
    have hc : c ≠ ':' := fun he => h (by simp [he])
    have hr : ':' ∉ rest := fun hm => h (by simp [hm])
    simp only [X402.splitColon, ih hr]
    simp [hc]

/-- Splitting a 4-field header built from colon-free fields. -/
theorem X402.jsSplitColon_four (k a n b : String) (hk : ':' ∉ k.data)
    (ha : ':' ∉ a.data) (hn : ':' ∉ n.data) (hb : ':' ∉ b.data) :
    X402.jsSplitColon (k ++ ":" ++ a ++ ":" ++ n ++ ":" ++ b) = [k, a, n, b] := by
  have hdata : (k ++ ":" ++ a ++ ":" ++ n ++ ":" ++ b).data
      = k.data ++ ':' :: (a.data ++ ':' :: (n.data ++ ':' :: b.data)) := by
    simp [String.data_append]
  unfold X402.jsSplitColon
  rw [hdata, X402.splitColon_append _ _ hk, X402.splitColon_append _ _ ha,
    X402.splitColon_append _ _ hn, X402.splitColon_no_colon _ hb]
  rfl

/-! ## Claim C9 -/

/-- C9: a header built as `kind:account:nonce:base64(sig)` from a registered
kind, colon-free non-empty account and nonce, and a signature byte string
parses back to exactly those four fields, with the original signature bytes. -/
theorem X402.parseProof_roundtrip (kind account nonce : String) (sig : List Nat)
    (hk : kind = "phantom" ∨ kind = "metamask")
    (haccE : account ≠ "") (hacc : ':' ∉ account.data)
    (hnE : nonce ≠ "") (hn : ':' ∉ nonce.data)
    (hs : ∀ b ∈ sig, b < 256) :
    X402.parseProof (some (kind ++ ":" ++ account ++ ":" ++ nonce ++ ":" ++
      X402.base64Encode sig)) = X402.ParseResult.ok kind account nonce sig := by
  have hkc : ':' ∉ kind.data := by rcases hk with rfl | rfl <;> decide
  have hbc : ':' ∉ (X402.base64Encode sig).data := X402.encodeChunks_ne_colon sig
  have hsp := X402.jsSplitColon_four kind account nonce (X402.base64Encode sig)
    hkc hacc hn hbc
  have hne : kind ++ ":" ++ account ++ ":" ++ nonce ++ ":" ++
      X402.base64Encode sig ≠ "" := by
    intro he
    have hsp2 := hsp
    rw [he] at hsp2
    have hemp : X402.jsSplitColon "" = [""] := rfl
    rw [hemp] at hsp2
    simp at hsp2
  simp only [X402.parseProof, if_neg hne, hsp]
  rcases hk with rfl | rfl <;> simp [X402.nodeBase64Decode_encode sig hs]

/-- Witness for C9: a concrete phantom header with signature bytes
`[1, 2, 255]` round-trips. -/
theorem X402.parseProof_roundtrip_witness :
    (("phantom" : String) = "phantom" ∨ ("phantom" : String) = "metamask") ∧
    ("acc" : String) ≠ "" ∧ ':' ∉ ("acc" : String).data ∧
    ("n1" : String) ≠ "" ∧ ':' ∉ ("n1" : String).data ∧
    (∀ b ∈ [1, 2, 255], b < 256) ∧
    X402.parseProof (some ("phantom" ++ ":" ++ "acc" ++ ":" ++ "n1" ++ ":" ++
      X402.base64Encode [1, 2, 255])) =
        X402.ParseResult.ok "phantom" "acc" "n1" [1, 2, 255] :=
  ⟨Or.inl rfl, by decide, by decide, by decide, by decide, by decide,
    X402.parseProof_roundtrip "phantom" "acc" "n1" [1, 2, 255] (Or.inl rfl)
      (by decide) (by decide) (by decide) (by decide) (by decide)⟩

/-! ## Claim C6 -/

/-- C6 counterexample: a header whose account segment is empty still has four
segments, and `parseProof` accepts it — the source checks only the segment
count, not non-emptiness, so this input does NOT fail with `bad_format`. -/
theorem X402.parseProof_empty_segment_ok :
    X402.parseProof (some "phantom::n:AA==") =
      X402.ParseResult.ok "phantom" "" "n" [0] := by decide

/-- C6 amended: for a non-empty header, `parseProof` fails with `bad_format`
exactly when splitting on `:` does not give four segments; segments are not
checked for emptiness (an empty kind falls to `bad_kind`, an empty account,
nonce or signature segment parses successfully).  The empty header itself is
reported as `missing_header` by the JS truthiness test. -/
theorem X402.parseProof_bad_format_iff (h : String) (hne : h ≠ "") :
    X402.parseProof (some h) = X402.ParseResult.err "bad_format" ↔
      (X402.jsSplitColon h).length ≠ 4 := by
  simp only [X402.parseProof, if_neg hne]
  rcases X402.jsSplitColon h with _ | ⟨p1, _ | ⟨p2, _ | ⟨p3, _ | ⟨p4, _ | ⟨p5, rest⟩⟩⟩⟩⟩
  · simp
  · simp
  · simp
  · simp
  · by_cases hk : p1 ≠ "phantom" ∧ p1 ≠ "metamask" <;> simp [hk]
  · simp

/-- Witness for C6: the 2-segment header `a:b` is non-empty and indeed fails
as `bad_format`. -/
theorem X402.parseProof_bad_format_iff_witness :
    ("a:b" : String) ≠ "" ∧
      (X402.parseProof (some "a:b") = X402.ParseResult.err "bad_format" ↔
        (X402.jsSplitColon "a:b").length ≠ 4) :=
  ⟨by decide, X402.parseProof_bad_format_iff "a:b" (by decide)⟩

/-! ## Claim C7 -/

/-- C7: `????` is not valid standard base64, yet the parse succeeds with an
empty signature — Node's `Buffer.from(_, "base64")` never throws, so the
`bad_b64` catch branch of the source is unreachable and invalid characters
are silently dropped. -/
theorem X402.parseProof_invalid_b64_ok :
    X402.parseProof (some "phantom:acc:n:????") =
      X402.ParseResult.ok "phantom" "acc" "n" [] := by decide

/-! ## Claim C4 -/

/-- C4: whenever the recovery routine returns an address, `verifyMetaMask`
succeeds exactly when the recovered address equals the claimed account under
case-insensitive comparison, and the verdict's resolved identity `who` is the
recovered address (with chain tag `evm`). -/
theorem X402.verifyMetaMask_recover (o : X402.CryptoOracles)
    (account nonce : String) (sigBytes : List Nat) (recovered : String)
    (hr : o.ethersVerifyMessage ("x402-proof:" ++ nonce)
      ("0x" ++ X402.toHexStr sigBytes) = some recovered) :
    ((X402.verifyMetaMask o account sigBytes nonce).ok = true ↔
      X402.jsToLower recovered = X402.jsToLower account) ∧
    (X402.verifyMetaMask o account sigBytes nonce).who = some recovered ∧
    (X402.verifyMetaMask o account sigBytes nonce).chain = some "evm" := by
  unfold X402.verifyMetaMask
  rw [hr]
  simp

/-- Witness for C4: the recovered address `0xAbCd` differs from the claimed
account `0xABCD` only in letter case, and verification succeeds with `who`
equal to the recovered address. -/
theorem X402.verifyMetaMask_recover_witness :
    X402.sampleOracles.ethersVerifyMessage ("x402-proof:" ++ "n1")
      ("0x" ++ X402.toHexStr [1]) = some "0xAbCd" ∧
    (X402.verifyMetaMask X402.sampleOracles "0xABCD" [1] "n1").ok = true ∧
    (X402.verifyMetaMask X402.sampleOracles "0xABCD" [1] "n1").who =
      some "0xAbCd" :=
  ⟨rfl,
   ((X402.verifyMetaMask_recover X402.sampleOracles "0xABCD" "n1" [1]
      "0xAbCd" rfl).1).mpr (by decide),
   (X402.verifyMetaMask_recover X402.sampleOracles "0xABCD" "n1" [1]
      "0xAbCd" rfl).2.1⟩

/-! ## Claim C8 -/

/-- The two verdict shapes `verifyPhantom` can produce. -/
theorem X402.verifyPhantom_shape (o : X402.CryptoOracles) (a : String)
    (sg : List Nat) (n : String) :
    X402.verifyPhantom o a sg n = ⟨false, none, none, some "phantom_verify_error"⟩ ∨
    ∃ r, X402.verifyPhantom o a sg n = ⟨r, some a, some "solana", none⟩ := by
  cases hb : o.bs58Decode a with
  | none => exact Or.inl (by simp [X402.verifyPhantom, hb])
  | some pub =>
    cases hv : o.naclVerify (X402.msgBytes n) sg pub with
    | none => exact Or.inl (by simp [X402.verifyPhantom, hb, hv])
    | some r => exact Or.inr ⟨r, by simp [X402.verifyPhantom, hb, hv]⟩

/-- The two verdict shapes `verifyMetaMask` can produce. -/
theorem X402.verifyMetaMask_shape (o : X402.CryptoOracles) (a : String)
    (sg : List Nat) (n : String) :
    X402.verifyMetaMask o a sg n = ⟨false, none, none, some "metamask_verify_error"⟩ ∨
    ∃ rec, X402.verifyMetaMask o a sg n =
      ⟨X402.jsToLower rec == X402.jsToLower a, some rec, some "evm", none⟩ := by
  cases hr : o.ethersVerifyMessage ("x402-proof:" ++ n)
      ("0x" ++ X402.toHexStr sg) with
  | none => exact Or.inl (by simp [X402.verifyMetaMask, hr])
  | some rec => exact Or.inr ⟨rec, by simp [X402.verifyMetaMask, hr]⟩

/-- `verifyProof` forwards a parse failure unchanged (as a reasoned verdict). -/
theorem X402.verifyProof_parse_err (o : X402.CryptoOracles) (h : Option String)
    (r : String) (hp : X402.parseProof h = X402.ParseResult.err r) :
    X402.verifyProof o h = ⟨false, none, none, some r⟩ := by
  unfold X402.verifyProof
  rw [hp]

/-- `verifyProof` dispatches a successful parse on the kind. -/
theorem X402.verifyProof_parse_ok (o : X402.CryptoOracles) (h : Option String)
    (k a n : String) (sg : List Nat)
    (hp : X402.parseProof h = X402.ParseResult.ok k a n sg) :
    X402.verifyProof o h =
      (if k = "phantom" then X402.verifyPhantom o a sg n
       else if k = "metamask" then X402.verifyMetaMask o a sg n
       else ⟨false, none, none, some "unknown_kind"⟩) := by
  unfold X402.verifyProof
  rw [hp]

/-- C8 counterexample: libraries that complete without throwing but report a
signature mismatch make `verifyProof` return a failing verdict with NO reason
code (`{ok: false, who, chain}`), refuting "every failure is a verdict with
ok=false and a reason code". -/
theorem X402.verifyProof_mismatch_no_reason :
    X402.verifyProof X402.sampleOracles (some "phantom:acc:n1:AA==") =
      ⟨false, some "acc", some "solana", none⟩ := by decide

/-- C8 amended: `verifyProof` always returns a verdict; every decode or
library throw is caught and mapped to the scheme-specific error verdict
(`phantom_verify_error` / `metamask_verify_error`), parse failures carry the
parse reason, and the only reasonless failures are completed signature checks
that merely mismatch — which carry the resolved identity and chain tag. -/
theorem X402.verifyProof_error_verdicts (o : X402.CryptoOracles)
    (h : Option String) :
    ((X402.verifyProof o h).ok = false → (X402.verifyProof o h).reason = none →
      (X402.verifyProof o h).who.isSome = true ∧
      (X402.verifyProof o h).chain.isSome = true) ∧
    (∀ k a n sg, X402.parseProof h = X402.ParseResult.ok k a n sg →
      k = "phantom" →
      (o.bs58Decode a = none ∨
        ∀ pub, o.bs58Decode a = some pub →
          o.naclVerify (X402.msgBytes n) sg pub = none) →
      X402.verifyProof o h = ⟨false, none, none, some "phantom_verify_error"⟩) ∧
    (∀ k a n sg, X402.parseProof h = X402.ParseResult.ok k a n sg →
      k = "metamask" →
      o.ethersVerifyMessage ("x402-proof:" ++ n) ("0x" ++ X402.toHexStr sg) = none →
      X402.verifyProof o h = ⟨false, none, none, some "metamask_verify_error"⟩) := by
  refine ⟨?_, ?_, ?_⟩
  · intro hok hreason
    cases hp : X402.parseProof h with
    | err r =>
      rw [X402.verifyProof_parse_err o h r hp] at hreason
      simp at hreason
    | ok k a n sg =>
      rw [X402.verifyProof_parse_ok o h k a n sg hp] at hreason ⊢
      by_cases hk1 : k = "phantom"
      · rw [if_pos hk1] at hreason ⊢
        rcases X402.verifyPhantom_shape o a sg n with hsh | ⟨r, hsh⟩
        · rw [hsh] at hreason; simp at hreason
        · rw [hsh]; exact ⟨rfl, rfl⟩
      · rw [if_neg hk1] at hreason ⊢
        by_cases hk2 : k = "metamask"
        · rw [if_pos hk2] at hreason ⊢
          rcases X402.verifyMetaMask_shape o a sg n with hsh | ⟨rec, hsh⟩
          · rw [hsh] at hreason; simp at hreason
          · rw [hsh]; exact ⟨rfl, rfl⟩
        · rw [if_neg hk2] at hreason; simp at hreason
  · intro k a n sg hp hk hthrow
    subst hk
    rw [X402.verifyProof_parse_ok o h "phantom" a n sg hp, if_pos rfl]
    rcases hthrow with hb | hall
    · simp [X402.verifyPhantom, hb]
    · cases hb2 : o.bs58Decode a with
      | none => simp [X402.verifyPhantom, hb2]
      | some pub => simp [X402.verifyPhantom, hb2, hall pub hb2]
  · intro k a n sg hp hk hthrow
    subst hk
    rw [X402.verifyProof_parse_ok o h "metamask" a n sg hp,
      if_neg (by decide), if_pos rfl]
    simp [X402.verifyMetaMask, hthrow]

/-- Witness for C8: with throwing libraries, a phantom proof yields exactly
the `phantom_verify_error` verdict. -/
theorem X402.verifyProof_error_verdicts_witness :
    X402.verifyProof X402.throwingOracles (some "phantom:acc:n1:AA==") =
      ⟨false, none, none, some "phantom_verify_error"⟩ :=
  (X402.verifyProof_error_verdicts X402.throwingOracles
    (some "phantom:acc:n1:AA==")).2.1 "phantom" "acc" "n1" [0]
    (by decide) rfl (Or.inl rfl)

/-! ## Gate lemmas -/

/-- `send402` always records the freshly issued nonce first, on every branch. -/
theorem X402.send402_store (cfg : X402.GateConfig) (s : X402.NonceStore)
    (fresh : String) (now : Nat) (chain : String) :
    (X402.send402 cfg s fresh now chain).1 = s.issue fresh now := by
  unfold X402.send402
  by_cases hc : chain = "evm"
  · by_cases he : cfg.receiverEvm = "" <;> simp [hc, he]
  · by_cases hs2 : cfg.receiverSol = "" <;> simp [hc, hs2]

/-- `send402` answers with a challenge carrying the fresh nonce, or with an
HTTP 500 configuration error. -/
theorem X402.send402_response (cfg : X402.GateConfig) (s : X402.NonceStore)
    (fresh : String) (now : Nat) (chain : String) :
    (∃ ch rcv amt ttl tx, (X402.send402 cfg s fresh now chain).2 =
      X402.GateResponse.challenge ch rcv amt ttl fresh tx) ∨
    (X402.send402 cfg s fresh now chain).2 =
      X402.GateResponse.serverError "RECEIVER_EVM not set" ∨
    (X402.send402 cfg s fresh now chain).2 =
      X402.GateResponse.serverError "RECEIVER_SOL not set" := by
  unfold X402.send402
  by_cases hc : chain = "evm"
  · by_cases he : cfg.receiverEvm = ""
    · simp [hc, he]
    · exact Or.inl ⟨"evm", cfg.receiverEvm, cfg.priceEth, cfg.ttlSeconds, true,
        by simp [hc, he]⟩
  · by_cases hs2 : cfg.receiverSol = ""
    · simp [hc, hs2]
    · exact Or.inl ⟨"solana", cfg.receiverSol, cfg.priceSol, cfg.ttlSeconds,
        false, by simp [hc, hs2]⟩

/-- With a present, non-empty header that fails parsing or signature
verification, `handlePremium` is exactly a `send402` for some chain — it
never reaches `verifyAndUse`. -/
theorem X402.handlePremium_invalid_eq (cfg : X402.GateConfig)
    (s : X402.NonceStore) (o : X402.CryptoOracles) (fresh : String) (now : Nat)
    (chainQ h : String) (hne : h ≠ "")
    (hfail : (X402.verifyProof o (some h)).ok = false) :
    ∃ ch, X402.handlePremium cfg s o fresh now chainQ (some h) =
      X402.send402 cfg s fresh now ch := by
  simp only [X402.handlePremium]
  rw [if_neg hne]
  cases hp : X402.parseProof (some h) with
  | err r => exact ⟨_, rfl⟩
  | ok k a n sg =>
    refine ⟨if X402.jsToLower chainQ = ""
        then (if k = "metamask" then "evm" else "solana")
        else X402.jsToLower chainQ, ?_⟩
    simp [hfail]

/-! ## Claim C1 -/

/-- C1 counterexample: with no Solana receiver configured, a malformed proof
header gets an HTTP 500 `RECEIVER_SOL not set` — not a fresh challenge — so
"the gate responds with a fresh challenge instead" fails as stated (though no
nonce is consumed there either). -/
theorem X402.invalid_proof_misconfigured_500 :
    (X402.handlePremium X402.emptyConfig (X402.mkStore 300) X402.sampleOracles
      "f1" 0 "" (some "zzz")).2 =
      X402.GateResponse.serverError "RECEIVER_SOL not set" ∧
    X402.GateResponse.isChallenge
      (X402.handlePremium X402.emptyConfig (X402.mkStore 300) X402.sampleOracles
        "f1" 0 "" (some "zzz")).2 = false := by
  constructor <;> decide

/-- C1 amended: whenever parsing or signature verification of a present,
non-empty proof header fails, `verifyAndUse` is never reached: the ledger
entry of every nonce other than the freshly issued one — in particular the
nonce named in the header — is unchanged (so no used flag moves), the fresh
nonce is recorded unused, and the gate responds with a fresh challenge
carrying the new nonce, or with an HTTP 500 configuration error when the
receiving account for the selected chain is unconfigured. -/
theorem X402.invalid_proof_no_consume (cfg : X402.GateConfig)
    (s : X402.NonceStore) (o : X402.CryptoOracles) (fresh : String) (now : Nat)
    (chainQ h : String) (hne : h ≠ "")
    (hfail : (X402.verifyProof o (some h)).ok = false) :
    (∀ m, m ≠ fresh →
      ((X402.handlePremium cfg s o fresh now chainQ (some h)).1).map m =
        s.map m) ∧
    ((X402.handlePremium cfg s o fresh now chainQ (some h)).1).map fresh =
      some ⟨now, now + s.ttl * 1000, false⟩ ∧
    ((∃ ch rcv amt ttl tx,
        (X402.handlePremium cfg s o fresh now chainQ (some h)).2 =
          X402.GateResponse.challenge ch rcv amt ttl fresh tx) ∨
      (X402.handlePremium cfg s o fresh now chainQ (some h)).2 =
        X402.GateResponse.serverError "RECEIVER_EVM not set" ∨
      (X402.handlePremium cfg s o fresh now chainQ (some h)).2 =
        X402.GateResponse.serverError "RECEIVER_SOL not set") := by
  rcases X402.handlePremium_invalid_eq cfg s o fresh now chainQ h hne hfail
    with ⟨ch, heq⟩
  rw [heq]
  refine ⟨?_, ?_, ?_⟩
  · intro m hm
    rw [X402.send402_store]
    exact X402.issue_map_other s fresh now m hm
  · rw [X402.send402_store]
    exact X402.issue_map_self s fresh now
  · exact X402.send402_response cfg s fresh now ch

/-- Witness for C1 (amended): at the malformed header `zzz` the hypotheses
hold and, in particular, every other ledger entry is untouched. -/
theorem X402.invalid_proof_no_consume_witness :
    ("zzz" : String) ≠ "" ∧
    (X402.verifyProof X402.sampleOracles (some "zzz")).ok = false ∧
    (∀ m, m ≠ "f1" →
      ((X402.handlePremium X402.emptyConfig (X402.mkStore 300)
        X402.sampleOracles "f1" 0 "" (some "zzz")).1).map m =
        (X402.mkStore 300).map m) :=
  ⟨by decide, by decide,
   (X402.invalid_proof_no_consume X402.emptyConfig (X402.mkStore 300)
     X402.sampleOracles "f1" 0 "" "zzz" (by decide) (by decide)).1⟩

/-! ## Claim C5 -/

/-- The only failure reasons `verifyAndUse` produces. -/
theorem X402.verifyAndUse_fail_reason (s : X402.NonceStore) (n : String)
    (t : Nat) (r : String)
    (hu : (s.verifyAndUse n t).2 = ⟨false, some r⟩) :
    r = "nonce_not_found" ∨ r = "nonce_expired" ∨ r = "nonce_replayed" := by
  unfold X402.NonceStore.verifyAndUse at hu
  cases hm : s.map n with
  | none =>
    rw [hm] at hu
    simp at hu
    exact Or.inl hu.symm
  | some e =>
    rw [hm] at hu
    by_cases h1 : t > e.expiresAt
    · simp [h1] at hu
      exact Or.inr (Or.inl hu.symm)
    · by_cases h2 : e.used
      · simp [h1, h2] at hu
        exact Or.inr (Or.inr hu.symm)
      · simp [h1, h2] at hu

/-- C5: when the header parses and verifies but `verifyAndUse` on its nonce
fails, the gate answers 402 with exactly that reason (one of
`nonce_not_found`, `nonce_expired`, `nonce_replayed`) and the ledger is
completely unchanged — in particular no fresh nonce is issued, unlike on the
parse- and verification-failure paths. -/
theorem X402.nonce_failure_402_no_issue (cfg : X402.GateConfig)
    (s : X402.NonceStore) (o : X402.CryptoOracles) (fresh : String) (now : Nat)
    (chainQ h kind acct n : String) (sg : List Nat) (r : String)
    (hne : h ≠ "")
    (hp : X402.parseProof (some h) = X402.ParseResult.ok kind acct n sg)
    (hv : (X402.verifyProof o (some h)).ok = true)
    (hu : (s.verifyAndUse n now).2 = ⟨false, some r⟩) :
    X402.handlePremium cfg s o fresh now chainQ (some h) =
      (s, X402.GateResponse.paymentError (some r)) ∧
    (r = "nonce_not_found" ∨ r = "nonce_expired" ∨ r = "nonce_replayed") := by
  have hfst : (s.verifyAndUse n now).1 = s :=
    X402.verifyAndUse_fail_fst s n now (by rw [hu])
  constructor
  · simp only [X402.handlePremium]
    rw [if_neg hne, hp]
    simp [hv, hu, hfst]
  · exact X402.verifyAndUse_fail_reason s n now r hu

/-- Witness for C5: a verifying MetaMask proof over the unknown nonce `n1`
is rejected as `nonce_not_found` with the ledger untouched. -/
theorem X402.nonce_failure_402_no_issue_witness :
    ("metamask:0xabcd:n1:" : String) ≠ "" ∧
    X402.parseProof (some "metamask:0xabcd:n1:") =
      X402.ParseResult.ok "metamask" "0xabcd" "n1" [] ∧
    (X402.verifyProof X402.sampleOracles (some "metamask:0xabcd:n1:")).ok = true ∧
    ((X402.mkStore 300).verifyAndUse "n1" 0).2 = ⟨false, some "nonce_not_found"⟩ ∧
    X402.handlePremium X402.emptyConfig (X402.mkStore 300) X402.sampleOracles
      "f1" 0 "" (some "metamask:0xabcd:n1:") =
      (X402.mkStore 300, X402.GateResponse.paymentError (some "nonce_not_found")) :=
  ⟨by decide, by decide, by decide, by decide,
   (X402.nonce_failure_402_no_issue X402.emptyConfig (X402.mkStore 300)
     X402.sampleOracles "f1" 0 "" "metamask:0xabcd:n1:" "metamask" "0xabcd"
     "n1" [] "nonce_not_found" (by decide) (by decide) (by decide)
     (by decide)).1⟩

/-! ## Claim C10 -/

/-- C10: `send402` issues and records the fresh nonce before checking the
receiver configuration, so a request answered with HTTP 500
(`RECEIVER_EVM not set` / `RECEIVER_SOL not set`) still leaves the newly
issued, unused — and, the response being a bare error, never-delivered —
nonce entry in the ledger. -/
theorem X402.send402_issues_despite_misconfig (cfg : X402.GateConfig)
    (s : X402.NonceStore) (fresh : String) (now : Nat) (chain : String) :
    (chain = "evm" → cfg.receiverEvm = "" →
      X402.send402 cfg s fresh now chain =
        (s.issue fresh now, X402.GateResponse.serverError "RECEIVER_EVM not set") ∧
      (s.issue fresh now).map fresh = some ⟨now, now + s.ttl * 1000, false⟩) ∧
    (chain ≠ "evm" → cfg.receiverSol = "" →
      X402.send402 cfg s fresh now chain =
        (s.issue fresh now, X402.GateResponse.serverError "RECEIVER_SOL not set") ∧
      (s.issue fresh now).map fresh = some ⟨now, now + s.ttl * 1000, false⟩) := by
  constructor
  · intro h1 h2
    exact ⟨by simp [X402.send402, h1, h2], X402.issue_map_self s fresh now⟩
  · intro h1 h2
    exact ⟨by simp [X402.send402, h1, h2], X402.issue_map_self s fresh now⟩

/-- Witness for C10: the Solana branch with no receiver configured. -/
theorem X402.send402_issues_despite_misconfig_witness :
    ("solana" : String) ≠ "evm" ∧ X402.emptyConfig.receiverSol = "" ∧
    (X402.send402 X402.emptyConfig (X402.mkStore 300) "f1" 5 "solana" =
      ((X402.mkStore 300).issue "f1" 5,
        X402.GateResponse.serverError "RECEIVER_SOL not set") ∧
      ((X402.mkStore 300).issue "f1" 5).map "f1" =
        some ⟨5, 5 + 300 * 1000, false⟩) :=
  ⟨by decide, rfl,
   (X402.send402_issues_despite_misconfig X402.emptyConfig (X402.mkStore 300)
     "f1" 5 "solana").2 (by decide) rfl⟩
